import Mathlib

/-!
Verification development for the Turing machine simulator
(`Simulator/tm.py`, `Simulator/tmbuilder.py`, `Simulator/tmparser.py`).

The Python code is shallowly embedded: the machine's mutable fields
(tape, head, current state, executed-step counter, observer list) become an
explicit `Config` record threaded through each operation, Python exceptions
become `Except`-style results paired with the (possibly partially mutated)
configuration, and observer callbacks become an append-only event log.
States and symbols in the repository are Python ints and strings, so they are
embedded as a small dynamic value type `PyVal` that also carries Python's
truthiness, which the validation code in `tm.py` depends on.
-/

namespace TMSim

/-- Python values used as states and symbols in the repository
(ints such as `1`, `2`, `3`, `0` and strings such as `"HALT"`, `"#"`). -/
inductive PyVal where
  | int (n : Int)
  | str (s : String)
  deriving DecidableEq, Repr

/-- Python truthiness of a value: `bool(0) = False`, `bool("") = False`,
everything else used here is truthy. -/
def PyVal.truthy : PyVal → Bool
  | .int n => n != 0
  | .str s => s != ""

/-- Python truthiness of an optional value, `none` standing for Python `None`
(which is falsy). -/
def pyOptTruthy : Option PyVal → Bool
  | none => false
  | some v => v.truthy

/-- Shorthand for an int-valued Python state/symbol. -/
def pI (n : Int) : PyVal := .int n

/-- Shorthand for a string-valued Python state/symbol. -/
def pS (s : String) : PyVal := .str s

/-- TuringMachine.MOVE_RIGHT = 1 in tm.py. -/
def MOVE_RIGHT : Nat := 1

/-- TuringMachine.MOVE_LEFT = 2 in tm.py. -/
def MOVE_LEFT : Nat := 2

/-- TuringMachine.NON_MOVEMENT = 3 in tm.py. -/
def NON_MOVEMENT : Nat := 3

/-- TuringMachine.HEAD_MOVEMENTS in tm.py, as the list
`frozenset((MOVE_LEFT, MOVE_RIGHT, NON_MOVEMENT))`. -/
def HEAD_MOVEMENTS : List Nat := [MOVE_LEFT, MOVE_RIGHT, NON_MOVEMENT]

/-- One entry of the transition dictionary:
`(state, symbol) : (state, symbol, movement)`. -/
abbrev TransEntry := (PyVal × PyVal) × (PyVal × PyVal × Nat)

/-- The immutable data of a `TuringMachine` instance: frozensets are embedded
as lists with membership semantics, the transition dict as an association
list keyed by the `(state, symbol)` pair. -/
structure TM where
  states : List PyVal
  in_alphabet : List PyVal
  tape_alphabet : List PyVal
  trans_function : List TransEntry
  istate : PyVal
  fstates : List PyVal
  hstate : PyVal
  blank : PyVal
  deriving DecidableEq, Repr

/-- Observer callback events, mirroring the four observer methods of
`TuringMachine.attachObserver`. -/
inductive Event where
  | stepStart (state : PyVal) (sym : PyVal)
  | stepEnd (state : PyVal) (sym : PyVal) (movement : Nat)
  | tapeChanged (headPos : Int)
  | headMoved (newPos : Nat) (oldPos : Nat)
  deriving DecidableEq, Repr

/-- Python exceptions raised by the engine.  The `tmexceptions` kinds are the
typed ones; `indexError` stands for an untyped Python `IndexError` escaping
from a raw list indexing such as `self._tape[self._head]`. -/
inductive Err where
  | haltState
  | unsetTape
  | unknownTransition (state : PyVal) (sym : PyVal)
  | invalidSymbol (sym : PyVal)
  | indexError
  deriving DecidableEq, Repr

/-- The mutable runtime fields of a `TuringMachine`: tape (`None` before
`setTape`), head, current state, executed-step counter, number of attached
observers and the log of callback dispatches `(observer index, event)` in
chronological order. -/
structure Config where
  tape : Option (List PyVal)
  head : Nat
  state : PyVal
  nsteps : Nat
  nobs : Nat
  events : List (Nat × Event)
  deriving DecidableEq, Repr

/-- Dictionary lookup `self._trans_function[cur]` on the association list. -/
def lookupTrans (tf : List TransEntry) (k : PyVal × PyVal) :
    Option (PyVal × PyVal × Nat) :=
  match tf.find? (fun e => e.1 = k) with
  | some e => some e.2
  | none => none

/-- Dispatch one event to every attached observer in registration order
(`for obs in self._observers: ...`). -/
def notifyAll (nobs : Nat) (e : Event) : List (Nat × Event) :=
  (List.range nobs).map (fun i => (i, e))

/-- TuringMachine.step from tm.py.  Returns the configuration as mutated by
the call together with the call's outcome.  A raised exception leaves every
field as it was at the raise point: a `haltState`/`unsetTape` failure mutates
nothing, an `unknownTransition` failure has already dispatched the
`onStepStart` notifications (the lookup happens after them). -/
def stepF (tm : TM) (cfg : Config) : Config × Except Err Unit :=
  if cfg.state = tm.hstate then
    (cfg, .error .haltState)
  else
    match cfg.tape with
    | none => (cfg, .error .unsetTape)
    | some tape =>
      match tape.get? cfg.head with
      | none => (cfg, .error .indexError)
      | some curSym =>
        let cfg1 := { cfg with
          events := cfg.events ++ notifyAll cfg.nobs (.stepStart cfg.state curSym) }
        match lookupTrans tm.trans_function (cfg.state, curSym) with
        | none => (cfg1, .error (.unknownTransition cfg.state curSym))
        | some (nstate, nsym, movement) =>
          let tape1 := tape.set cfg.head nsym
          let moved : List PyVal × Nat :=
            if movement = MOVE_LEFT then
              if cfg.head = 0 then (tm.blank :: tape1, 0)
              else (tape1, cfg.head - 1)
            else if movement = MOVE_RIGHT then
              if cfg.head + 1 = tape1.length then (tape1 ++ [tm.blank], cfg.head + 1)
              else (tape1, cfg.head + 1)
            else (tape1, cfg.head)
          let endEvents := (List.range cfg.nobs).flatMap (fun i =>
            (i, Event.stepEnd nstate nsym movement) ::
              (if moved.2 ≠ cfg.head then [(i, Event.headMoved moved.2 cfg.head)] else []))
          ({ cfg1 with
              tape := some moved.1
              head := moved.2
              state := nstate
              nsteps := cfg.nsteps + 1
              events := cfg1.events ++ endEvents }, .ok ())

/-- Iterate `step()` a given number of times, stopping at the first failure. -/
def iterSteps (tm : TM) : Nat → Config → Config × Except Err Unit
  | 0, cfg => (cfg, .ok ())
  | n + 1, cfg =>
    match stepF tm cfg with
    | (c, .ok _) => iterSteps tm n c
    | (c, .error e) => (c, .error e)

/-- The bounded branch of TuringMachine.run: `for i in xrange(max_steps):
self.step()` returning 1, with `except HaltStateException: return 0` and the
outer `except UnknownTransitionException: return 2`; other exceptions
propagate. -/
def runBounded (tm : TM) : Nat → Config → Config × Except Err Nat
  | 0, cfg => (cfg, .ok 1)
  | n + 1, cfg =>
    match stepF tm cfg with
    | (c, .ok _) => runBounded tm n c
    | (c, .error .haltState) => (c, .ok 0)
    | (c, .error (.unknownTransition _ _)) => (c, .ok 2)
    | (c, .error e) => (c, .error e)

/-- The unbounded branch of TuringMachine.run: `while not self.isAtHaltState():
self.step()` returning 0, with `except UnknownTransitionException: return 2`;
other exceptions propagate.  `fuel` bounds the number of loop iterations the
embedding unfolds; `none` means the Python loop is still running after that
many iterations. -/
def runUnbounded (tm : TM) : Nat → Config → Option (Config × Except Err Nat)
  | 0, _ => none
  | fuel + 1, cfg =>
    if cfg.state = tm.hstate then some (cfg, .ok 0)
    else
      match stepF tm cfg with
      | (c, .ok _) => runUnbounded tm fuel c
      | (c, .error (.unknownTransition _ _)) => some (c, .ok 2)
      | (c, .error e) => some (c, .error e)

/-- TuringMachine.run from tm.py.  `maxSteps = none` is Python
`max_steps=None`; the guard `if max_steps:` is Python truthiness, so
`max_steps=0` also takes the unbounded branch. -/
def run (tm : TM) (maxSteps : Option Nat) (fuel : Nat) (cfg : Config) :
    Option (Config × Except Err Nat) :=
  match maxSteps with
  | some n => if n = 0 then runUnbounded tm fuel cfg else some (runBounded tm n cfg)
  | none => runUnbounded tm fuel cfg

/-- TuringMachine.setTape from tm.py.  Validates every element of `tape`
against the tape alphabet (raising `InvalidSymbolException` at the first
offender, before any mutation), then installs the buffer and head, padding
with blanks when `head_pos` lies outside the given sequence, and notifies
`onTapeChanged(head_pos)`. -/
def setTape (tm : TM) (cfg : Config) (tape : List PyVal) (head_pos : Int) :
    Config × Except Err Unit :=
  match tape.find? (fun s => ¬ s ∈ tm.tape_alphabet) with
  | some s => (cfg, .error (.invalidSymbol s))
  | none =>
    let buf_head : List PyVal × Nat :=
      if head_pos < 0 then
        (List.replicate (-head_pos).toNat tm.blank ++ tape, 0)
      else if (tape.length : Int) ≤ head_pos then
        let t0 := if tape.isEmpty then [tm.blank] else tape
        (t0 ++ List.replicate (head_pos - (tape.length : Int)).toNat tm.blank,
          head_pos.toNat)
      else (tape, head_pos.toNat)
    ({ cfg with
        tape := some buf_head.1
        head := buf_head.2
        events := cfg.events ++ notifyAll cfg.nobs (.tapeChanged head_pos) }, .ok ())

/-- TuringMachine.isWordAccepted from tm.py: snapshot tape/state/head, install
`word` as a fresh tape at head 0, run, restore the snapshot, and map the run's
integer outcome to `some true`/`some false`/`none`.  Exceptions from the
internal `setTape`/`run` propagate without the restore (there is no `finally`
in the source); `none` at the outer `Option` means the internal unbounded run
was still looping when the fuel ran out. -/
def isWordAccepted (tm : TM) (cfg : Config) (word : List PyVal)
    (maxSteps : Option Nat) (fuel : Nat) :
    Option (Config × Except Err (Option Bool)) :=
  let old_tape := cfg.tape
  let old_state := cfg.state
  let old_head := cfg.head
  match setTape tm cfg word 0 with
  | (c1, .error e) => some (c1, .error e)
  | (c1, .ok _) =>
    match run tm maxSteps fuel c1 with
    | none => none
    | some (c2, .error e) => some (c2, .error e)
    | some (c2, .ok end_cond) =>
      let c3 := { c2 with tape := old_tape }
      let accepted : Option Bool :=
        if end_cond = 0 ∨ end_cond = 2 then some (decide (c3.state ∈ tm.fstates))
        else none
      some ({ c3 with state := old_state, head := old_head }, .ok accepted)

/-- The distinct `raise Exception(...)` sites of `TuringMachine._checkData`.
The source raises plain `Exception`s with messages; the spec groups them as
`ValidationKind`. -/
inductive CheckErr where
  | inNotSubset
  | blankNotInTape
  | invalidInitial
  | finalNotSubset
  | invalidTransState (v : PyVal)
  | invalidTransSymbol (v : PyVal)
  | invalidTransMovement (m : Nat)
  deriving DecidableEq, Repr

/-- The per-entry loop of `TuringMachine._checkData`.  `inv_state` starts as
Python `None`, is set to `k[0]` if that is not a state and then overwritten by
`v[0]` if that is not a state; the error is raised only `if inv_state:`, i.e.
only when the recorded offender is truthy.  Symbols are treated the same way
against the tape alphabet, then the movement is tested against the legal set.
The source's `len(k) != 2 or len(v) != 3` format check cannot fail in this
typed embedding (keys are pairs and values are triples by construction). -/
def checkTransEntries (tm : TM) : List TransEntry → Except CheckErr Unit
  | [] => .ok ()
  | ((k1, k2), (v1, v2, m)) :: rest =>
    let inv_state : Option PyVal :=
      if ¬ v1 ∈ tm.states then some v1
      else if ¬ k1 ∈ tm.states then some k1
      else none
    if pyOptTruthy inv_state then
      .error (.invalidTransState (inv_state.getD v1))
    else
      let inv_sym : Option PyVal :=
        if ¬ v2 ∈ tm.tape_alphabet then some v2
        else if ¬ k2 ∈ tm.tape_alphabet then some k2
        else none
      if pyOptTruthy inv_sym then
        .error (.invalidTransSymbol (inv_sym.getD v2))
      else if ¬ m ∈ HEAD_MOVEMENTS then
        .error (.invalidTransMovement m)
      else
        checkTransEntries tm rest

/-- TuringMachine._checkData from tm.py: the four set-level checks in source
order, then the loop over the transition dictionary. -/
def checkData (tm : TM) : Except CheckErr Unit :=
  if ¬ (∀ s ∈ tm.in_alphabet, s ∈ tm.tape_alphabet) then
    .error .inNotSubset
  else if ¬ tm.blank ∈ tm.tape_alphabet then
    .error .blankNotInTape
  else if ¬ tm.istate ∈ tm.states then
    .error .invalidInitial
  else if ¬ (∀ s ∈ tm.fstates, s ∈ tm.states) then
    .error .finalNotSubset
  else
    checkTransEntries tm tm.trans_function

/-- TuringMachine.__init__ from tm.py: store the constructor arguments, run
`_checkData` (construction fails if it raises), then initialise the mutable
fields: tape `None`, head 0, current state = initial state, step counter 0,
empty observer list. -/
def mkMachine (states in_alphabet tape_alphabet : List PyVal)
    (trans_function : List TransEntry) (istate : PyVal) (fstates : List PyVal)
    (hstate blank : PyVal) : Except CheckErr (TM × Config) :=
  let tm : TM := {
    states := states
    in_alphabet := in_alphabet
    tape_alphabet := tape_alphabet
    trans_function := trans_function
    istate := istate
    fstates := fstates
    hstate := hstate
    blank := blank }
  match checkData tm with
  | .error e => .error e
  | .ok _ =>
    .ok (tm, { tape := none, head := 0, state := istate, nsteps := 0,
               nobs := 0, events := [] })

/-- The mutable working set of `TuringMachineBuilder`: `None`-able fields are
`Option`s, the sets are lists with membership-guarded insertion, the
transition dict an insertion-ordered association list. -/
structure Builder where
  states : List PyVal
  in_alphabet : List PyVal
  trans_function : List TransEntry
  istate : Option PyVal
  fstates : List PyVal
  blank : Option PyVal
  haltstate : Option PyVal
  deriving DecidableEq, Repr

/-- TuringMachineBuilder() / TuringMachineBuilder.clean(): everything empty or
unset. -/
def emptyBuilder : Builder :=
  { states := [], in_alphabet := [], trans_function := [], istate := none,
    fstates := [], blank := none, haltstate := none }

/-- `if x not in s: s.add(x)` on a set embedded as a list. -/
def addIfAbsent (l : List PyVal) (x : PyVal) : List PyVal :=
  if x ∈ l then l else l ++ [x]

/-- `self._trans_function[k] = v` on a Python dict embedded as an
insertion-ordered association list: overwrite in place if the key exists,
append otherwise. -/
def dictInsert (l : List TransEntry) (k : PyVal × PyVal)
    (v : PyVal × PyVal × Nat) : List TransEntry :=
  if l.any (fun e => e.1 = k) then
    l.map (fun e => if e.1 = k then (k, v) else e)
  else l ++ [(k, v)]

/-- The `hasattr(symbol, 'len')` test in
`TuringMachineBuilder.addTransition`.  No Python value used by this repository
(ints, strings) has an attribute named `len` — strings expose `__len__`, not
`len` — so the test is always false. -/
def hasAttrLen (_ : PyVal) : Bool := false

/-- `len(symbol)` for a symbol value.  Only ever evaluated under
`hasAttrLen`, which is always false; the int case (a Python `TypeError`) is
unreachable. -/
def pyLen : PyVal → Nat
  | .int _ => 0
  | .str s => s.length

/-- Builder-level failures (plain `Exception`s in the source; the spec groups
them as `MalformedInputKind` / `CompletionKind`). -/
inductive BuildErr where
  | invalidMovement
  | symbolTooLong
  | blankNotOneChar
  | noInitialState
  | noBlankSymbol
  | noHaltState
  deriving DecidableEq, Repr

/-- TuringMachineBuilder.addTransition from tmbuilder.py: reject illegal
movements; reject over-long symbols only when `hasattr(symbol, 'len')` holds
(which it never does, see `hasAttrLen`); then auto-add states and non-blank
symbols to the tracked sets and register the mapping. -/
def addTransition (b : Builder) (state symbol new_state new_symbol : PyVal)
    (movement : Nat) : Except BuildErr Builder :=
  if ¬ movement ∈ HEAD_MOVEMENTS then
    .error .invalidMovement
  else if (hasAttrLen symbol && pyLen symbol > 1) ||
      (hasAttrLen new_symbol && pyLen new_symbol > 1) then
    .error .symbolTooLong
  else
    let states1 := addIfAbsent b.states state
    let in_al1 :=
      if some symbol ≠ b.blank ∧ ¬ symbol ∈ b.in_alphabet then
        b.in_alphabet ++ [symbol]
      else b.in_alphabet
    let states2 := addIfAbsent states1 new_state
    let in_al2 :=
      if some new_symbol ≠ b.blank ∧ ¬ new_symbol ∈ in_al1 then
        in_al1 ++ [new_symbol]
      else in_al1
    .ok { b with
      states := states2
      in_alphabet := in_al2
      trans_function := dictInsert b.trans_function (state, symbol)
        (new_state, new_symbol, movement) }

/-- TuringMachineBuilder.addFinalState from tmbuilder.py. -/
def addFinalState (b : Builder) (state : PyVal) : Builder :=
  { b with states := addIfAbsent b.states state,
           fstates := addIfAbsent b.fstates state }

/-- TuringMachineBuilder.setInitialState from tmbuilder.py: add to states and
replace the stored initial state (last write wins). -/
def setInitialState (b : Builder) (state : PyVal) : Builder :=
  { b with states := addIfAbsent b.states state, istate := some state }

/-- TuringMachineBuilder.setBlankSymbol from tmbuilder.py: the argument is a
string in every caller; `if not blank_sym or len(blank_sym) > 1: raise`. -/
def setBlankSymbol (b : Builder) (blank_sym : String) :
    Except BuildErr Builder :=
  if blank_sym = "" ∨ blank_sym.length > 1 then
    .error .blankNotOneChar
  else
    .ok { b with blank := some (pS blank_sym) }

/-- TuringMachineBuilder.setHaltState from tmbuilder.py: if a previous halt
state exists and occurs in no transition key- or value-state component, drop
it from the tracked states; then store the new halt state and add it to the
states. -/
def setHaltState (b : Builder) (haltstate : PyVal) : Builder :=
  let states1 :=
    match b.haltstate with
    | none => b.states
    | some old =>
      if b.trans_function.any (fun e => e.1.1 = old ∨ e.2.1 = old) then
        b.states
      else
        b.states.filter (fun s => s ≠ old)
  { b with states := addIfAbsent states1 haltstate, haltstate := some haltstate }

/-- TuringMachineBuilder.create from tmbuilder.py: fail if the initial state,
blank symbol or halt state is unset; otherwise derive
`tape_alphabet = in_alphabet ∪ {blank}` and construct the machine,
propagating any construction-time validation failure. -/
def builderCreate (b : Builder) : Except (BuildErr ⊕ CheckErr) (TM × Config) :=
  match b.istate with
  | none => .error (.inl .noInitialState)
  | some istate =>
    match b.blank with
    | none => .error (.inl .noBlankSymbol)
    | some blank =>
      match b.haltstate with
      | none => .error (.inl .noHaltState)
      | some haltstate =>
        let tape_alphabet := addIfAbsent b.in_alphabet blank
        match mkMachine b.states b.in_alphabet tape_alphabet b.trans_function
            istate b.fstates haltstate blank with
        | .error e => .error (.inr e)
        | .ok tc => .ok tc

/-- Python 2 `\s` on byte strings: space, tab, newline, carriage return,
vertical tab, form feed. -/
def isPySpace (c : Char) : Bool :=
  c = ' ' || c = '\t' || c = '\n' || c = '\r' || c = '\x0b' || c = '\x0c'

/-- Python 2 `\w` on byte strings: ASCII letters, digits and underscore. -/
def isWordChar (c : Char) : Bool :=
  c.isAlpha || c.isDigit || c = '_'

/-- Character classes occurring in the parser's regular expressions:
a literal space `[ ]`, whitespace `\s`, a literal character, a word
character `\w`, any character but newline `.`, and the movement class
`[<>_]`. -/
inductive CharCls where
  | sp
  | ws
  | lit (c : Char)
  | word
  | dot
  | move
  deriving DecidableEq, Repr

/-- Membership of a character in a class. -/
def CharCls.mem : CharCls → Char → Bool
  | .sp, c => c = ' '
  | .ws, c => isPySpace c
  | .lit a, c => c = a
  | .word, c => isWordChar c
  | .dot, c => c ≠ '\n'
  | .move, c => c = '<' || c = '>' || c = '_'

/-- Greedy quantifiers occurring in the parser's regular expressions. -/
inductive Quant where
  | one
  | star
  | plus
  deriving DecidableEq, Repr

/-- One item of a regular expression: a character class with a quantifier,
optionally a capturing group. -/
structure Item where
  cls : CharCls
  quant : Quant
  capture : Bool
  deriving DecidableEq, Repr

/-- A literal string in a pattern, one item per character. -/
def litSeq (s : String) : List Item :=
  s.data.map (fun c => ⟨.lit c, .one, false⟩)

/-- Backtracking matcher for a sequence of pattern items against the whole
input, with Python `re` semantics: greedy quantifiers try the longest
repetition first and back off; the end of the pattern (all the parser's
patterns except the comment one end in `$`) matches at the end of the input
or just before a single trailing newline.  Returns the list of captured
groups in pattern order, or `none` when the pattern does not match. -/
def matchSeq : List Item → List Char → Option (List (List Char))
  | [], cs => if cs = [] ∨ cs = ['\n'] then some [] else none
  | it :: rest, cs =>
    match it.quant with
    | .one =>
      match cs with
      | [] => none
      | c :: cs' =>
        if it.cls.mem c then
          (matchSeq rest cs').map (fun caps =>
            if it.capture then [c] :: caps else caps)
        else none
    | .star =>
      let m := (cs.takeWhile it.cls.mem).length
      ((List.range (m + 1)).reverse).findSome? (fun k =>
        (matchSeq rest (cs.drop k)).map (fun caps =>
          if it.capture then (cs.take k) :: caps else caps))
    | .plus =>
      let m := (cs.takeWhile it.cls.mem).length
      ((List.range m).reverse).findSome? (fun j =>
        (matchSeq rest (cs.drop (j + 1))).map (fun caps =>
          if it.capture then (cs.take (j + 1)) :: caps else caps))

/-- `self._inital_state_re = re.compile('[ ]*INITIAL[ ]+(?P<state>\w)\s*$')`
from tmparser.py — note the single `\w` in the capturing group. -/
def initialPat : List Item :=
  [⟨.sp, .star, false⟩] ++ litSeq "INITIAL" ++
    [⟨.sp, .plus, false⟩, ⟨.word, .one, true⟩, ⟨.ws, .star, false⟩]

/-- `self._halt_state_re = re.compile('[ ]*HALT[ ]+(?P<state>\w+)\s*$')`. -/
def haltPat : List Item :=
  [⟨.sp, .star, false⟩] ++ litSeq "HALT" ++
    [⟨.sp, .plus, false⟩, ⟨.word, .plus, true⟩, ⟨.ws, .star, false⟩]

/-- `self._final_state_re = re.compile('[ ]*FINAL[ ]+(?P<state>\w+)\s*$')`. -/
def finalPat : List Item :=
  [⟨.sp, .star, false⟩] ++ litSeq "FINAL" ++
    [⟨.sp, .plus, false⟩, ⟨.word, .plus, true⟩, ⟨.ws, .star, false⟩]

/-- `self._blank_symbol_re = re.compile('[\s]*BLANK[\s]+(?P<symbol>.)\s*$')`. -/
def blankPat : List Item :=
  [⟨.ws, .star, false⟩] ++ litSeq "BLANK" ++
    [⟨.ws, .plus, false⟩, ⟨.dot, .one, true⟩, ⟨.ws, .star, false⟩]

/-- The transition pattern
`\s*(?P<state>\w+)\s*,\s*(?P<symbol>.)\s*->\s*(?P<nstate>\w+)\s*,\s*(?P<nsymbol>.)\s*,\s*(?P<movement>[<>_])\s*$`. -/
def transitionPat : List Item :=
  [⟨.ws, .star, false⟩, ⟨.word, .plus, true⟩, ⟨.ws, .star, false⟩] ++
    litSeq "," ++
    [⟨.ws, .star, false⟩, ⟨.dot, .one, true⟩, ⟨.ws, .star, false⟩] ++
    litSeq "->" ++
    [⟨.ws, .star, false⟩, ⟨.word, .plus, true⟩, ⟨.ws, .star, false⟩] ++
    litSeq "," ++
    [⟨.ws, .star, false⟩, ⟨.dot, .one, true⟩, ⟨.ws, .star, false⟩] ++
    litSeq "," ++
    [⟨.ws, .star, false⟩, ⟨.move, .one, true⟩, ⟨.ws, .star, false⟩]

/-- `self._comment_line_re.match(data)` with pattern `[ ]*%\s*`: an
unanchored prefix match, so it succeeds exactly when the line starts with
optional spaces followed by `%`. -/
def matchComment (data : String) : Bool :=
  (data.data.dropWhile (fun c => c = ' ')).head? = some '%'

/-- `self._inital_state_re.match(data)`, returning the captured state. -/
def matchInitial (data : String) : Option String :=
  match matchSeq initialPat data.data with
  | some [st] => some (String.mk st)
  | _ => none

/-- `self._halt_state_re.match(data)`, returning the captured state. -/
def matchHalt (data : String) : Option String :=
  match matchSeq haltPat data.data with
  | some [st] => some (String.mk st)
  | _ => none

/-- `self._final_state_re.match(data)`, returning the captured state. -/
def matchFinal (data : String) : Option String :=
  match matchSeq finalPat data.data with
  | some [st] => some (String.mk st)
  | _ => none

/-- `self._blank_symbol_re.match(data)`, returning the captured symbol. -/
def matchBlank (data : String) : Option String :=
  match matchSeq blankPat data.data with
  | some [sym] => some (String.mk sym)
  | _ => none

/-- `self._transition_re.match(data)`, returning the five captured groups. -/
def matchTransition (data : String) :
    Option (String × String × String × String × Char) :=
  match matchSeq transitionPat data.data with
  | some [st, sym, nst, nsym, [mv]] =>
    some (String.mk st, String.mk sym, String.mk nst, String.mk nsym, mv)
  | _ => none

/-- Parser-level failures: the `raise Exception(...)` sites of
`TuringMachineParser.parseLine` and its helpers (`UnrecognizedLineKind`,
`DuplicateDirectiveKind` in the spec's taxonomy), plus propagated builder
failures. -/
inductive ParseErr where
  | unrecognized
  | duplicateInitial
  | duplicateBlank
  | duplicateHalt
  | builderErr (e : BuildErr)
  deriving DecidableEq, Repr

/-- TuringMachineParser.parseLine from tmparser.py: try the line classifiers
in source order — transition, comment, final state, initial state, blank
symbol, halt state — mutating the underlying builder on the first match, and
fail as unrecognized when none matches.  The `INITIAL`/`BLANK`/`HALT`
branches first fail if the directive was already given. -/
def parseLine (b : Builder) (data : String) : Except ParseErr Builder :=
  match matchTransition data with
  | some (st, sym, nst, nsym, mv) =>
    let move :=
      if mv = '<' then MOVE_LEFT
      else if mv = '>' then MOVE_RIGHT
      else NON_MOVEMENT
    (addTransition b (pS st) (pS sym) (pS nst) (pS nsym) move).mapError .builderErr
  | none =>
    if matchComment data then .ok b
    else
      match matchFinal data with
      | some st => .ok (addFinalState b (pS st))
      | none =>
        match matchInitial data with
        | some st =>
          if b.istate.isSome then .error .duplicateInitial
          else .ok (setInitialState b (pS st))
        | none =>
          match matchBlank data with
          | some sym =>
            if b.blank.isSome then .error .duplicateBlank
            else (setBlankSymbol b sym).mapError .builderErr
          | none =>
            match matchHalt data with
            | some st =>
              if b.haltstate.isSome then .error .duplicateHalt
              else .ok (setHaltState b (pS st))
            | none => .error .unrecognized

/-- `Except.ok`-ness as a Bool (the source distinguishes normal return from a
raised exception). -/
def isOkE {ε α : Type} : Except ε α → Bool
  | .ok _ => true
  | .error _ => false

instance {ε α : Type} [DecidableEq ε] [DecidableEq α] :
    DecidableEq (Except ε α) := fun a b =>
  match a, b with
  | .ok x, .ok y =>
    if h : x = y then .isTrue (by rw [h])
    else .isFalse (by intro hc; cases hc; exact h rfl)
  | .error x, .error y =>
    if h : x = y then .isTrue (by rw [h])
    else .isFalse (by intro hc; cases hc; exact h rfl)
  | .ok _, .error _ => .isFalse (by intro hc; cases hc)
  | .error _, .ok _ => .isFalse (by intro hc; cases hc)

/-! Concrete machines used to instantiate the theorems below. -/

/-- The binary-incrementer machine of `tm.py`'s self-test and of spec §8.7:
states `{1,2,3,HALT}`, input alphabet `{0,1}`, tape alphabet `{0,1,#}`,
initial state 1, final state `{2}`, halt state `HALT`, blank `#`, and the
seven listed transitions. -/
def INC : TM := {
  states := [pI 1, pI 2, pI 3, pS "HALT"]
  in_alphabet := [pI 0, pI 1]
  tape_alphabet := [pI 0, pI 1, pS "#"]
  trans_function := [
    ((pI 1, pI 0), (pI 2, pI 1, MOVE_RIGHT)),
    ((pI 1, pI 1), (pI 2, pI 0, MOVE_RIGHT)),
    ((pI 2, pI 0), (pI 1, pI 0, NON_MOVEMENT)),
    ((pI 2, pI 1), (pI 3, pI 1, MOVE_RIGHT)),
    ((pI 3, pI 0), (pS "HALT", pI 0, NON_MOVEMENT)),
    ((pI 3, pI 1), (pS "HALT", pI 1, NON_MOVEMENT)),
    ((pI 3, pS "#"), (pS "HALT", pS "#", NON_MOVEMENT))]
  istate := pI 1
  fstates := [pI 2]
  hstate := pS "HALT"
  blank := pS "#" }

/-- The incrementer's freshly constructed configuration (no tape yet). -/
def incCfg0 : Config :=
  { tape := none, head := 0, state := pI 1, nsteps := 0, nobs := 0, events := [] }

/-- The scenario's input tape `[1,0,0,0,0,1]`. -/
def incTape : List PyVal := [pI 1, pI 0, pI 0, pI 0, pI 0, pI 1]

/-- The incrementer's configuration after `setTape([1,0,0,0,0,1])`. -/
def incCfgT : Config := (setTape INC incCfg0 incTape 0).1

/-- The incrementer's configuration after the scenario's run: tape
`[0,1,1,1,1,1,#]`, head one past the written suffix, machine halted after
11 steps. -/
def incFinal : Config :=
  { tape := some [pI 0, pI 1, pI 1, pI 1, pI 1, pI 1, pS "#"], head := 6,
    state := pS "HALT", nsteps := 11, nobs := 0, events := [] }

/-- A minimal machine that halts after exactly one step:
`(1, a) -> (H, a, NON_MOVEMENT)`. -/
def M1 : TM := {
  states := [pI 1, pS "H"]
  in_alphabet := [pS "a"]
  tape_alphabet := [pS "a", pS "#"]
  trans_function := [((pI 1, pS "a"), (pS "H", pS "a", NON_MOVEMENT))]
  istate := pI 1
  fstates := []
  hstate := pS "H"
  blank := pS "#" }

/-- `M1` with tape `[a]` installed, at the initial state. -/
def cfgM1 : Config :=
  { tape := some [pS "a"], head := 0, state := pI 1, nsteps := 0, nobs := 0,
    events := [] }

/-- `M1` already at its halt state. -/
def cfgM1Halt : Config :=
  { tape := some [pS "a"], head := 0, state := pS "H", nsteps := 0, nobs := 0,
    events := [] }

/-- `M1` with no tape set. -/
def cfgM1Unset : Config :=
  { tape := none, head := 0, state := pI 1, nsteps := 0, nobs := 0,
    events := [] }

/-- `M1` reading a blank, for which no transition is defined. -/
def cfgM1Unknown : Config :=
  { tape := some [pS "#"], head := 0, state := pI 1, nsteps := 0, nobs := 0,
    events := [] }

/-- A machine with the single transition `(1, a) -> (2, b, MOVE_RIGHT)`,
whose resulting state/symbol differ from the pre-lookup pair. -/
def M6 : TM := {
  states := [pI 1, pI 2]
  in_alphabet := [pS "a", pS "b"]
  tape_alphabet := [pS "a", pS "b", pS "#"]
  trans_function := [((pI 1, pS "a"), (pI 2, pS "b", MOVE_RIGHT))]
  istate := pI 1
  fstates := []
  hstate := pS "H"
  blank := pS "#" }

/-- `M6` with tape `[a]` installed and two attached observers. -/
def cfgM6 : Config :=
  { tape := some [pS "a"], head := 0, state := pI 1, nsteps := 0, nobs := 2,
    events := [] }

/-- Claim C7: the binary-incrementer machine (states `{1,2,3,HALT}`, blank
`#`, initial state 1, final state `{2}`, halt `HALT`, the seven listed
transitions) is accepted by the constructor; given tape `[1,0,0,0,0,1]` at
head 0 in state 1, the unbounded `run()` terminates with outcome
`HaltReached` (0) and the internal tape buffer then reads `[0,1,1,1,1,1,#]`
from the original start index. -/
theorem claim_C7_inc_scenario :
    mkMachine [pI 1, pI 2, pI 3, pS "HALT"] [pI 0, pI 1] [pI 0, pI 1, pS "#"]
        INC.trans_function (pI 1) [pI 2] (pS "HALT") (pS "#") =
      .ok (INC, incCfg0) ∧
    setTape INC incCfg0 incTape 0 = (incCfgT, .ok ()) ∧
    run INC none 20 incCfgT = some (incFinal, .ok 0) ∧
    incFinal.tape = some [pI 0, pI 1, pI 1, pI 1, pI 1, pI 1, pS "#"] := by
  refine ⟨by decide, by decide, by decide, by decide⟩

/-- Claim C1 is false on the code at two concrete points.  First, `M1` halts
at step k = 1 ≤ N = 1 (one successful step lands exactly on the halt state),
yet `run(maxSteps=1)` returns `StepLimitReached` (1), not `HaltReached` (0):
the `HaltStateException` only fires on a further `step()` call, which the
exhausted loop never makes.  Second, `run(maxSteps=0)` does not perform at
most 0 steps: the Python guard `if max_steps:` treats 0 as false and takes
the unbounded branch, which here executes a step and returns `HaltReached`. -/
theorem claim_C1_counterexample :
    (iterSteps M1 1 cfgM1).2 = .ok () ∧
    (iterSteps M1 1 cfgM1).1.state = M1.hstate ∧
    (runBounded M1 1 cfgM1).2 = .ok 1 ∧
    run M1 (some 1) 5 cfgM1 = some (runBounded M1 1 cfgM1) ∧
    run M1 (some 0) 5 cfgM1 = runUnbounded M1 5 cfgM1 ∧
    (runUnbounded M1 5 cfgM1).map (fun p => (p.1.nsteps, p.2)) =
      some (1, .ok 0) := by
  refine ⟨by decide, by decide, by decide, by decide, by decide, by decide⟩

/-- Claim C2 is false on the code at two concrete constructions.  First, a
machine whose halt state `2` is not among its states `{1}` is accepted:
`_checkData` has no check for invariant 5.  Second, a machine whose
transition key state `0` is not among its states `{1}` is accepted: the loop
records the offender in `inv_state` but raises only `if inv_state:`, and the
int `0` is falsy, so the violation of invariant 6 is silently skipped. -/
theorem claim_C2_counterexample :
    (isOkE (mkMachine [pI 1] [] [pS "#"] [] (pI 1) [] (pI 2) (pS "#")) = true ∧
      ¬ pI 2 ∈ [pI 1]) ∧
    (isOkE (mkMachine [pI 1] [] [pS "#"]
        [((pI 0, pS "#"), (pI 1, pS "#", NON_MOVEMENT))]
        (pI 1) [] (pI 1) (pS "#")) = true ∧
      ¬ pI 0 ∈ [pI 1]) := by
  refine ⟨⟨by decide, by decide⟩, ⟨by decide, by decide⟩⟩

/-- Claim C6 is false on the code: for the successful step of `M6` (two
observers attached), the transition is `(1,a) -> (2,b,MoveRight)`, but the
recorded `onStepStart` dispatches carry the pre-lookup pair `(1, a)`, not the
transition's resulting `(2, b)`; the full dispatch log also shows observer
0's `onHeadMoved` arriving before observer 1's `onStepEnd` (per-observer
interleaving), not all `onStepEnd`s followed by all `onHeadMoved`s. -/
theorem claim_C6_counterexample :
    lookupTrans M6.trans_function (pI 1, pS "a") =
      some (pI 2, pS "b", MOVE_RIGHT) ∧
    (stepF M6 cfgM6).2 = .ok () ∧
    (stepF M6 cfgM6).1.events =
      [(0, .stepStart (pI 1) (pS "a")), (1, .stepStart (pI 1) (pS "a")),
       (0, .stepEnd (pI 2) (pS "b") MOVE_RIGHT), (0, .headMoved 1 0),
       (1, .stepEnd (pI 2) (pS "b") MOVE_RIGHT), (1, .headMoved 1 0)] ∧
    Event.stepStart (pI 1) (pS "a") ≠ Event.stepStart (pI 2) (pS "b") := by
  refine ⟨by decide, by decide, by decide, by decide⟩

/-- Claim C8: the `INITIAL` directive.  The single-character behaviour works
as claimed — `INITIAL q` sets the builder's initial state and a second
`INITIAL` line fails as a duplicate directive — but the capturing group of
`_inital_state_re` is `(?P<state>\w)`, a single word character, where every
sibling pattern uses `\w+`: a multi-character state token such as
`INITIAL q0` matches no line classifier and is reported as unrecognized,
contradicting the claim (and making multi-character states, accepted
everywhere else in the grammar, impossible to declare initial). -/
theorem claim_C8_theorem :
    matchInitial "INITIAL q" = some "q" ∧
    parseLine emptyBuilder "INITIAL q" =
      .ok (setInitialState emptyBuilder (pS "q")) ∧
    parseLine (setInitialState emptyBuilder (pS "q")) "INITIAL r" =
      .error .duplicateInitial ∧
    matchInitial "INITIAL q0" = none ∧
    parseLine emptyBuilder "INITIAL q0" = .error .unrecognized := by
  refine ⟨by decide, by decide, by decide, by decide, by decide⟩

/-- Claim C9: `addTransition`'s movement check works as claimed — an illegal
movement value is rejected — but the symbol-length check is dead code: it is
guarded by `hasattr(symbol, 'len')`, which is false for every Python string
(strings expose `__len__`, not `len`), so a two-character symbol such as
`"xy"` is registered without any failure, contradicting the claim and the
function's own docstring (`Raise Exception if symbols have more than one
char length`). -/
theorem claim_C9_theorem :
    addTransition emptyBuilder (pS "a") (pS "x") (pS "b") (pS "z") 5 =
      .error .invalidMovement ∧
    pyLen (pS "xy") = 2 ∧
    addTransition emptyBuilder (pS "a") (pS "xy") (pS "b") (pS "z")
        MOVE_RIGHT =
      .ok { states := [pS "a", pS "b"], in_alphabet := [pS "xy", pS "z"],
            trans_function := [((pS "a", pS "xy"), (pS "b", pS "z", MOVE_RIGHT))],
            istate := none, fstates := [], blank := none,
            haltstate := none } := by
  refine ⟨by decide, by decide, by decide⟩

/-- Claim C3: whenever `isWordAccepted` returns normally, the returned
configuration's tape, current state and head equal their values before the
call, whichever of the three outcomes (`some true`, `some false`, `none`)
was produced. -/
theorem claim_C3_restoration (tm : TM) (cfg : Config) (word : List PyVal)
    (maxSteps : Option Nat) (fuel : Nat) (cfg' : Config) (acc : Option Bool)
    (h : isWordAccepted tm cfg word maxSteps fuel = some (cfg', .ok acc)) :
    cfg'.tape = cfg.tape ∧ cfg'.state = cfg.state ∧ cfg'.head = cfg.head := by
  unfold isWordAccepted at h
  split at h
  · simp at h
  · split at h
    · simp at h
    · simp at h
    · simp only [Option.some.injEq, Prod.mk.injEq] at h
      obtain ⟨h1, -⟩ := h
      subst h1
      exact ⟨rfl, rfl, rfl⟩

/-- Witness for claim C3 at the incrementer: checking the word `[1,0,1,0]`
returns with tape, state and head restored. -/
theorem claim_C3_witness :
    ({ incCfgT with nsteps := 5 } : Config).tape = incCfgT.tape ∧
    ({ incCfgT with nsteps := 5 } : Config).state = incCfgT.state ∧
    ({ incCfgT with nsteps := 5 } : Config).head = incCfgT.head :=
  claim_C3_restoration INC incCfgT [pI 1, pI 0, pI 1, pI 0] none 30
    { incCfgT with nsteps := 5 } (some false) (by decide)

/-- The bounded run loop only ever returns the integer codes 0, 1 and 2. -/
theorem runBounded_codes (tm : TM) :
    ∀ n cfg c r, runBounded tm n cfg = (c, .ok r) → r = 0 ∨ r = 1 ∨ r = 2 := by
  intro n
  induction n with
  | zero =>
    intro cfg c r h
    simp only [runBounded, Prod.mk.injEq, Except.ok.injEq] at h
    omega
  | succ n ih =>
    intro cfg c r h
    rw [runBounded] at h
    rcases hs : stepF tm cfg with ⟨c1, r1⟩
    rw [hs] at h
    match r1 with
    | .ok _ => exact ih c1 c r h
    | .error .haltState => simp_all
    | .error (.unknownTransition s y) => simp_all
    | .error .unsetTape => simp_all
    | .error (.invalidSymbol s) => simp_all
    | .error .indexError => simp_all

/-- The unbounded run loop only ever returns the integer codes 0 and 2. -/
theorem runUnbounded_codes (tm : TM) :
    ∀ fuel cfg c r, runUnbounded tm fuel cfg = some (c, .ok r) →
      r = 0 ∨ r = 2 := by
  intro fuel
  induction fuel with
  | zero => intro cfg c r h; simp [runUnbounded] at h
  | succ n ih =>
    intro cfg c r h
    rw [runUnbounded] at h
    split at h
    · simp_all
    · rcases hs : stepF tm cfg with ⟨c1, r1⟩
      rw [hs] at h
      match r1 with
      | .ok _ => exact ih c1 c r h
      | .error .haltState => simp_all
      | .error (.unknownTransition s y) => simp_all
      | .error .unsetTape => simp_all
      | .error (.invalidSymbol s) => simp_all
      | .error .indexError => simp_all

/-- `run` only ever returns the integer codes 0, 1 and 2. -/
theorem run_codes (tm : TM) (maxSteps : Option Nat) (fuel : Nat)
    (cfg c : Config) (r : Nat) (h : run tm maxSteps fuel cfg = some (c, .ok r)) :
    r = 0 ∨ r = 1 ∨ r = 2 := by
  unfold run at h
  match maxSteps with
  | none => rcases runUnbounded_codes tm fuel cfg c r h with h' | h' <;> omega
  | some n =>
    by_cases hn : n = 0
    · simp only [hn, if_pos rfl] at h
      rcases runUnbounded_codes tm fuel cfg c r h with h' | h' <;> omega
    · simp only [if_neg hn, Option.some.injEq] at h
      exact runBounded_codes tm n cfg c r h

/-- Claim C4: `isWordAccepted`'s outcome is determined by the internal run's
integer code: `Indeterminate` (`none`) exactly when the run ended by the step
limit (code 1), and otherwise (`HaltReached` or `UnknownTransition`)
`some true`/`some false` according to whether the machine's post-run state is
a final state. -/
theorem claim_C4_tristate (tm : TM) (cfg : Config) (word : List PyVal)
    (maxSteps : Option Nat) (fuel : Nat) (c1 c2 : Config) (r : Nat)
    (h1 : setTape tm cfg word 0 = (c1, .ok ()))
    (h2 : run tm maxSteps fuel c1 = some (c2, .ok r)) :
    isWordAccepted tm cfg word maxSteps fuel =
      some ({ c2 with tape := cfg.tape, state := cfg.state, head := cfg.head },
        .ok (if r = 1 then none
             else some (decide (c2.state ∈ tm.fstates)))) := by
  have hr := run_codes tm maxSteps fuel c1 c2 r h2
  unfold isWordAccepted
  rw [h1]
  dsimp only
  rw [h2]
  rcases hr with h | h | h <;> subst h <;> simp

/-- Witness for claim C4 at the incrementer: checking `[1,0,0,0]` ends by an
unknown transition (code 2) in the final state 2, so the word is accepted. -/
theorem claim_C4_witness :
    isWordAccepted INC incCfgT [pI 1, pI 0, pI 0, pI 0] none 30 =
      some ({ incCfgT with nsteps := 7 }, .ok (some true)) := by
  have h := claim_C4_tristate INC incCfgT [pI 1, pI 0, pI 0, pI 0] none 30
    { incCfgT with tape := some [pI 1, pI 0, pI 0, pI 0] }
    { tape := some [pI 0, pI 1, pI 1, pI 1, pS "#"], head := 4, state := pI 2,
      nsteps := 7, nobs := 0, events := [] } 2 (by decide) (by decide)
  rw [h]
  decide

/-- Claim C5: `step()`'s failure contract.  At the halt state it fails with
`HaltStateKind` (checked first); otherwise with an unset tape it fails with
`UnsetTapeKind`; otherwise, with the head reading a symbol inside the
buffer, it fails with `UnknownTransitionKind` carrying the offending
`(state, symbol)` pair exactly when the transition function has no entry for
it, and that failure leaves tape, head, current state and the executed-step
counter unchanged. -/
theorem claim_C5_step_errors (tm : TM) (cfg : Config) :
    (cfg.state = tm.hstate → stepF tm cfg = (cfg, .error .haltState)) ∧
    (cfg.state ≠ tm.hstate → cfg.tape = none →
      stepF tm cfg = (cfg, .error .unsetTape)) ∧
    (∀ t sym, cfg.state ≠ tm.hstate → cfg.tape = some t →
      t[cfg.head]? = some sym →
      ((lookupTrans tm.trans_function (cfg.state, sym) = none →
          ∃ c, stepF tm cfg = (c, .error (.unknownTransition cfg.state sym)) ∧
            c.tape = cfg.tape ∧ c.head = cfg.head ∧ c.state = cfg.state ∧
            c.nsteps = cfg.nsteps) ∧
        (∀ tr, lookupTrans tm.trans_function (cfg.state, sym) = some tr →
          (stepF tm cfg).2 = .ok ()))) := by
  refine ⟨fun h => by simp [stepF, h], fun h1 h2 => by simp [stepF, h1, h2],
    fun t sym h1 ht hs => ⟨fun hl => ?_, fun tr hl => ?_⟩⟩
  · refine ⟨{ cfg with
        events := cfg.events ++ notifyAll cfg.nobs (.stepStart cfg.state sym) },
      ?_, rfl, rfl, rfl, rfl⟩
    simp [stepF, h1, ht, hs, hl]
  · rcases tr with ⟨ns, nsym, mov⟩
    simp [stepF, h1, ht, hs, hl]

/-- Witness for claim C5 on `M1`: the halt-state, unset-tape and
unknown-transition failures at concrete configurations, the last leaving the
mutable fields unchanged. -/
theorem claim_C5_witness :
    stepF M1 cfgM1Halt = (cfgM1Halt, .error .haltState) ∧
    stepF M1 cfgM1Unset = (cfgM1Unset, .error .unsetTape) ∧
    ∃ c, stepF M1 cfgM1Unknown =
        (c, .error (.unknownTransition (pI 1) (pS "#"))) ∧
      c.tape = cfgM1Unknown.tape ∧ c.head = cfgM1Unknown.head ∧
      c.state = cfgM1Unknown.state ∧ c.nsteps = cfgM1Unknown.nsteps :=
  ⟨(claim_C5_step_errors M1 cfgM1Halt).1 (by decide),
   (claim_C5_step_errors M1 cfgM1Unset).2.1 (by decide) rfl,
   ((claim_C5_step_errors M1 cfgM1Unknown).2.2 [pS "#"] (pS "#") (by decide)
      rfl (by decide)).1 (by decide)⟩

/-- Claim C10: for a non-empty word `t` of valid symbols and a head position
`p ≥ length t`, `setTape(t, p)` succeeds but builds a buffer of length
exactly `p` with the head at `p` — one cell past the last index — so a
subsequent `step()` (from a non-halt state) indexes the tape out of bounds
and fails with an untyped `IndexError` rather than reading a blank or
raising one of the typed error kinds. -/
theorem claim_C10_setTape_overrun (tm : TM) (cfg : Config) (t : List PyVal)
    (p : Nat) (ht : t ≠ []) (hsym : ∀ s ∈ t, s ∈ tm.tape_alphabet)
    (hp : t.length ≤ p) (hstate : cfg.state ≠ tm.hstate) :
    ∃ c, setTape tm cfg t (p : Int) = (c, .ok ()) ∧
      c.tape = some (t ++ List.replicate (p - t.length) tm.blank) ∧
      (t ++ List.replicate (p - t.length) tm.blank).length = p ∧
      c.head = p ∧
      (stepF tm c).2 = .error .indexError := by
  have hfind : t.find? (fun s => !decide (s ∈ tm.tape_alphabet)) = none := by
    rw [List.find?_eq_none]
    intro x hx
    simp [hsym x hx]
  have hneg : ¬ ((p : Int) < 0) := by omega
  have hle : ((t.length : Int) ≤ (p : Int)) := by omega
  have hemp : t.isEmpty = false := by
    cases t with
    | nil => exact absurd rfl ht
    | cons a l => rfl
  have htoNat : ((p : Int) - (t.length : Int)).toNat = p - t.length := by omega
  have hlen : (t ++ List.replicate (p - t.length) tm.blank).length = p := by
    simp [List.length_append, List.length_replicate]
    omega
  have hbuf : setTape tm cfg t (p : Int) =
      ({ cfg with
          tape := some (t ++ List.replicate (p - t.length) tm.blank)
          head := p
          events := cfg.events ++ notifyAll cfg.nobs (.tapeChanged (p : Int)) },
        .ok ()) := by
    simp [setTape, hfind, hneg, hle, hemp, htoNat]
  refine ⟨_, hbuf, rfl, hlen, ?_⟩
  have hget : (t ++ List.replicate (p - t.length) tm.blank)[p]? = none :=
    List.getElem?_eq_none (by simp [List.length_append, List.length_replicate]; omega)
  simp [stepF, hstate, hget]

/-- Witness for claim C10: `setTape([a], 3)` on `M1` yields the buffer
`[a,#,#]` of length 3 with head 3, and the next `step()` fails with the
untyped index error. -/
theorem claim_C10_witness :
    ∃ c, setTape M1 cfgM1 [pS "a"] ((3 : Nat) : Int) = (c, .ok ()) ∧
      c.tape = some ([pS "a"] ++ List.replicate (3 - [pS "a"].length) M1.blank) ∧
      ([pS "a"] ++ List.replicate (3 - [pS "a"].length) M1.blank).length = 3 ∧
      c.head = 3 ∧
      (stepF M1 c).2 = .error .indexError :=
  claim_C10_setTape_overrun M1 cfgM1 [pS "a"] 3 (by decide) (by decide)
    (by decide) (by decide)

/-- A successful `step()` increments the executed-step counter by one. -/
theorem stepF_ok_nsteps (tm : TM) (cfg c : Config)
    (h : stepF tm cfg = (c, .ok ())) : c.nsteps = cfg.nsteps + 1 := by
  unfold stepF at h
  split at h
  · simp at h
  · split at h
    · simp at h
    · split at h
      · simp at h
      · split at h
        · simp at h
        · simp only [Prod.mk.injEq] at h
          obtain ⟨h1, -⟩ := h
          subst h1
          rfl

/-- A failing `step()` leaves the executed-step counter unchanged. -/
theorem stepF_error_nsteps (tm : TM) (cfg c : Config) (e : Err)
    (h : stepF tm cfg = (c, .error e)) : c.nsteps = cfg.nsteps := by
  unfold stepF at h
  split at h
  · simp only [Prod.mk.injEq] at h
    obtain ⟨h1, -⟩ := h
    subst h1
    rfl
  · split at h
    · simp only [Prod.mk.injEq] at h
      obtain ⟨h1, -⟩ := h
      subst h1
      rfl
    · split at h
      · simp only [Prod.mk.injEq] at h
        obtain ⟨h1, -⟩ := h
        subst h1
        rfl
      · split at h
        · simp only [Prod.mk.injEq] at h
          obtain ⟨h1, -⟩ := h
          subst h1
          rfl
        · simp at h

/-- The bounded run loop performs at most its bound's worth of steps: the
executed-step counter grows by at most `n`. -/
theorem runBounded_nsteps_le (tm : TM) :
    ∀ n cfg c res, runBounded tm n cfg = (c, res) →
      c.nsteps ≤ cfg.nsteps + n := by
  intro n
  induction n with
  | zero =>
    intro cfg c res h
    rw [runBounded] at h
    obtain ⟨h1, -⟩ := Prod.mk.injEq .. ▸ h
    subst h1
    omega
  | succ n ih =>
    intro cfg c res h
    rw [runBounded] at h
    rcases hs : stepF tm cfg with ⟨c1, r1⟩
    rw [hs] at h
    cases r1 with
    | ok u =>
      cases u
      have h1 := stepF_ok_nsteps tm cfg c1 hs
      have h2 := ih c1 c res h
      omega
    | error e =>
      have h1 := stepF_error_nsteps tm cfg c1 e hs
      cases e with
      | haltState =>
        simp only [Prod.mk.injEq] at h
        obtain ⟨h2, -⟩ := h
        subst h2
        omega
      | unknownTransition s y =>
        simp only [Prod.mk.injEq] at h
        obtain ⟨h2, -⟩ := h
        subst h2
        omega
      | unsetTape =>
        simp only [Prod.mk.injEq] at h
        obtain ⟨h2, -⟩ := h
        subst h2
        omega
      | invalidSymbol s =>
        simp only [Prod.mk.injEq] at h
        obtain ⟨h2, -⟩ := h
        subst h2
        omega
      | indexError =>
        simp only [Prod.mk.injEq] at h
        obtain ⟨h2, -⟩ := h
        subst h2
        omega

/-- The bounded run loop never propagates `HaltStateException` or
`UnknownTransitionException`: both are caught and converted into the
outcome codes 0 and 2 respectively. -/
theorem runBounded_no_caught_error (tm : TM) :
    ∀ n cfg c e, runBounded tm n cfg = (c, .error e) →
      e ≠ .haltState ∧ ∀ s y, e ≠ .unknownTransition s y := by
  intro n
  induction n with
  | zero =>
    intro cfg c e h
    rw [runBounded] at h
    simp at h
  | succ n ih =>
    intro cfg c e h
    rw [runBounded] at h
    rcases hs : stepF tm cfg with ⟨c1, r1⟩
    rw [hs] at h
    cases r1 with
    | ok u => cases u; exact ih c1 c e h
    | error e1 =>
      cases e1 with
      | haltState => simp at h
      | unknownTransition s y => simp at h
      | unsetTape =>
        simp only [Prod.mk.injEq, Except.error.injEq] at h
        obtain ⟨-, h2⟩ := h
        subst h2
        exact ⟨by simp, fun s y => by simp⟩
      | invalidSymbol s =>
        simp only [Prod.mk.injEq, Except.error.injEq] at h
        obtain ⟨-, h2⟩ := h
        subst h2
        exact ⟨by simp, fun s y => by simp⟩
      | indexError =>
        simp only [Prod.mk.injEq, Except.error.injEq] at h
        obtain ⟨-, h2⟩ := h
        subst h2
        exact ⟨by simp, fun s y => by simp⟩

/-- If `k` successful steps land exactly on the halt state and `k` is
strictly below the bound, the bounded run returns `HaltReached` with the
halting configuration, after exactly `k` executed steps: the `(k+1)`-th
`step()` call raises `HaltStateException`, which the loop converts to 0. -/
theorem runBounded_halts (tm : TM) :
    ∀ k n cfg c, iterSteps tm k cfg = (c, .ok ()) → c.state = tm.hstate →
      k < n → runBounded tm n cfg = (c, .ok 0) ∧ c.nsteps = cfg.nsteps + k := by
  intro k
  induction k with
  | zero =>
    intro n cfg c hit hhalt hkn
    rw [iterSteps] at hit
    obtain ⟨h1, -⟩ := Prod.mk.injEq .. ▸ hit
    subst h1
    cases n with
    | zero => omega
    | succ m =>
      have hs : stepF tm cfg = (cfg, .error .haltState) := by
        simp [stepF, hhalt]
      rw [runBounded, hs]
      exact ⟨rfl, by omega⟩
  | succ k ih =>
    intro n cfg c hit hhalt hkn
    rw [iterSteps] at hit
    rcases hs : stepF tm cfg with ⟨c1, r1⟩
    rw [hs] at hit
    cases r1 with
    | error e => simp at hit
    | ok u =>
      cases u
      cases n with
      | zero => omega
      | succ m =>
        have hrec := ih m c1 c hit hhalt (by omega)
        have hns := stepF_ok_nsteps tm cfg c1 hs
        rw [runBounded, hs]
        exact ⟨hrec.1, by omega⟩

/-- Claim C1 (amended): for a positive bound N, `run(maxSteps=N)` is the
bounded loop; that loop advances the executed-step counter by at most N,
returns only the codes 0 (`HaltReached`), 1 (`StepLimitReached`) and
2 (`UnknownTransition`) when it returns normally, never propagates a
halt-state or unknown-transition failure, and when the machine halts after
k < N steps it returns `HaltReached` with exactly k steps executed.  (A
machine halting exactly at step N yields `StepLimitReached`, and
`maxSteps = 0` falls through to the unbounded branch: see the
counterexample.) -/
theorem claim_C1_bounded_run (tm : TM) (cfg : Config) (N fuel : Nat)
    (hN : 1 ≤ N) :
    run tm (some N) fuel cfg = some (runBounded tm N cfg) ∧
    (∀ c res, runBounded tm N cfg = (c, res) → c.nsteps ≤ cfg.nsteps + N) ∧
    (∀ c r, runBounded tm N cfg = (c, .ok r) → r = 0 ∨ r = 1 ∨ r = 2) ∧
    (∀ c e, runBounded tm N cfg = (c, .error e) →
      e ≠ .haltState ∧ ∀ s y, e ≠ .unknownTransition s y) ∧
    (∀ k c, iterSteps tm k cfg = (c, .ok ()) → c.state = tm.hstate → k < N →
      runBounded tm N cfg = (c, .ok 0) ∧ c.nsteps = cfg.nsteps + k) := by
  refine ⟨?_, fun c res h => runBounded_nsteps_le tm N cfg c res h,
    fun c r h => runBounded_codes tm N cfg c r h,
    fun c e h => runBounded_no_caught_error tm N cfg c e h,
    fun k c hit hhalt hkn => runBounded_halts tm k N cfg c hit hhalt hkn⟩
  simp only [run]
  rw [if_neg (by omega)]

/-- Witness for the amended claim C1 at the incrementer: with bound N = 20
the run is the bounded loop, which reaches the halt state after exactly 11
steps and reports `HaltReached`. -/
theorem claim_C1_witness :
    run INC (some 20) 5 incCfgT = some (runBounded INC 20 incCfgT) ∧
    runBounded INC 20 incCfgT = (incFinal, .ok 0) ∧
    incFinal.nsteps = incCfgT.nsteps + 11 :=
  have h := claim_C1_bounded_run INC incCfgT 20 5 (by decide)
  ⟨h.1, h.2.2.2.2 11 incFinal (by decide) (by decide) (by decide)⟩

/-- The condition under which `_checkData`'s per-entry state check lets the
pair `(k1, v1)` through: a violation by the value-state `v1` is detected only
when `v1` is truthy, and a violation by the key-state `k1` only when `v1` is
a valid state (otherwise `inv_state` is overwritten) and `k1` is truthy. -/
def transStateLenient (S : List PyVal) (k1 v1 : PyVal) : Prop :=
  (v1 ∈ S ∨ v1.truthy = false) ∧ (v1 ∈ S → (k1 ∈ S ∨ k1.truthy = false))

/-- The condition under which `_checkData`'s per-entry symbol check lets the
pair `(k2, v2)` through, mirroring `transStateLenient` over the tape
alphabet. -/
def transSymbolLenient (A : List PyVal) (k2 v2 : PyVal) : Prop :=
  (v2 ∈ A ∨ v2.truthy = false) ∧ (v2 ∈ A → (k2 ∈ A ∨ k2.truthy = false))

instance (S : List PyVal) (k1 v1 : PyVal) :
    Decidable (transStateLenient S k1 v1) := by
  unfold transStateLenient
  infer_instance

instance (A : List PyVal) (k2 v2 : PyVal) :
    Decidable (transSymbolLenient A k2 v2) := by
  unfold transSymbolLenient
  infer_instance

/-- The truthiness-guarded state test of `_checkData` passes exactly under
`transStateLenient`. -/
theorem stateLenient_iff (S : List PyVal) (k1 v1 : PyVal) :
    pyOptTruthy (if ¬ v1 ∈ S then some v1
                 else if ¬ k1 ∈ S then some k1 else none) = false ↔
      transStateLenient S k1 v1 := by
  by_cases h1 : v1 ∈ S <;> by_cases h2 : k1 ∈ S <;>
    simp [transStateLenient, pyOptTruthy, h1, h2]

/-- The truthiness-guarded symbol test of `_checkData` passes exactly under
`transSymbolLenient`. -/
theorem symbolLenient_iff (A : List PyVal) (k2 v2 : PyVal) :
    pyOptTruthy (if ¬ v2 ∈ A then some v2
                 else if ¬ k2 ∈ A then some k2 else none) = false ↔
      transSymbolLenient A k2 v2 := by
  by_cases h1 : v2 ∈ A <;> by_cases h2 : k2 ∈ A <;>
    simp [transSymbolLenient, pyOptTruthy, h1, h2]

/-- Unfolding one entry of `_checkData`'s transition loop. -/
theorem checkTransEntries_cons (tm : TM) (k1 k2 v1 v2 : PyVal) (m : Nat)
    (rest : List TransEntry) :
    checkTransEntries tm (((k1, k2), (v1, v2, m)) :: rest) = .ok () ↔
      (pyOptTruthy (if ¬ v1 ∈ tm.states then some v1
                    else if ¬ k1 ∈ tm.states then some k1 else none) = false ∧
       pyOptTruthy (if ¬ v2 ∈ tm.tape_alphabet then some v2
                    else if ¬ k2 ∈ tm.tape_alphabet then some k2 else none) = false ∧
       m ∈ HEAD_MOVEMENTS ∧ checkTransEntries tm rest = .ok ()) := by
  show (let inv_state : Option PyVal :=
      if ¬ v1 ∈ tm.states then some v1
      else if ¬ k1 ∈ tm.states then some k1 else none
    if pyOptTruthy inv_state then
      Except.error (.invalidTransState (inv_state.getD v1))
    else
      let inv_sym : Option PyVal :=
        if ¬ v2 ∈ tm.tape_alphabet then some v2
        else if ¬ k2 ∈ tm.tape_alphabet then some k2 else none
      if pyOptTruthy inv_sym then
        Except.error (.invalidTransSymbol (inv_sym.getD v2))
      else if ¬ m ∈ HEAD_MOVEMENTS then
        Except.error (.invalidTransMovement m)
      else
        checkTransEntries tm rest) = Except.ok () ↔ _
  dsimp only
  by_cases hb1 : pyOptTruthy (if ¬ v1 ∈ tm.states then some v1
      else if ¬ k1 ∈ tm.states then some k1 else none) = true
  · rw [if_pos hb1]
    constructor
    · intro h
      exact absurd h (by simp)
    · rintro ⟨c1, -⟩
      rw [c1] at hb1
      exact absurd hb1 (by decide)
  · rw [if_neg hb1]
    by_cases hb2 : pyOptTruthy (if ¬ v2 ∈ tm.tape_alphabet then some v2
        else if ¬ k2 ∈ tm.tape_alphabet then some k2 else none) = true
    · rw [if_pos hb2]
      constructor
      · intro h
        exact absurd h (by simp)
      · rintro ⟨-, c2, -⟩
        rw [c2] at hb2
        exact absurd hb2 (by decide)
    · rw [if_neg hb2]
      by_cases hb3 : m ∈ HEAD_MOVEMENTS
      · rw [if_neg (not_not_intro hb3)]
        exact ⟨fun h => ⟨eq_false_of_ne_true hb1, eq_false_of_ne_true hb2,
          hb3, h⟩, fun h => h.2.2.2⟩
      · rw [if_pos hb3]
        constructor
        · intro h
          exact absurd h (by simp)
        · rintro ⟨-, -, c3, -⟩
          exact absurd c3 hb3

/-- The transition loop of `_checkData` succeeds exactly when every entry
passes the lenient state and symbol tests and has a legal movement. -/
theorem checkTransEntries_ok_iff (tm : TM) :
    ∀ l, checkTransEntries tm l = .ok () ↔
      ∀ e ∈ l, transStateLenient tm.states e.1.1 e.2.1 ∧
        transSymbolLenient tm.tape_alphabet e.1.2 e.2.2.1 ∧
        e.2.2.2 ∈ HEAD_MOVEMENTS := by
  intro l
  induction l with
  | nil => simp [checkTransEntries]
  | cons a rest ih =>
    rcases a with ⟨⟨k1, k2⟩, v1, v2, m⟩
    rw [checkTransEntries_cons, stateLenient_iff, symbolLenient_iff, ih]
    simp [List.forall_mem_cons, and_assoc]

/-- `_checkData` succeeds exactly when the four set-level invariants hold and
every transition entry passes the lenient per-entry checks; no condition on
the halt state appears. -/
theorem checkData_ok_iff (tm : TM) :
    checkData tm = .ok () ↔
      ((∀ s ∈ tm.in_alphabet, s ∈ tm.tape_alphabet) ∧
       tm.blank ∈ tm.tape_alphabet ∧ tm.istate ∈ tm.states ∧
       (∀ s ∈ tm.fstates, s ∈ tm.states) ∧
       ∀ e ∈ tm.trans_function,
         transStateLenient tm.states e.1.1 e.2.1 ∧
         transSymbolLenient tm.tape_alphabet e.1.2 e.2.2.1 ∧
         e.2.2.2 ∈ HEAD_MOVEMENTS) := by
  unfold checkData
  by_cases h1 : ∀ s ∈ tm.in_alphabet, s ∈ tm.tape_alphabet
  · rw [if_neg (not_not_intro h1)]
    by_cases h2 : tm.blank ∈ tm.tape_alphabet
    · rw [if_neg (not_not_intro h2)]
      by_cases h3 : tm.istate ∈ tm.states
      · rw [if_neg (not_not_intro h3)]
        by_cases h4 : ∀ s ∈ tm.fstates, s ∈ tm.states
        · rw [if_neg (not_not_intro h4)]
          rw [checkTransEntries_ok_iff]
          exact ⟨fun h => ⟨h1, h2, h3, h4, h⟩, fun h => h.2.2.2.2⟩
        · rw [if_pos h4]
          simp [h4]
      · rw [if_pos h3]
        simp [h3]
    · rw [if_pos h2]
      simp [h2]
  · rw [if_pos h1]
    simp [h1]

/-- Claim C2 (amended): constructing a `TuringMachine` succeeds exactly when
invariants 1–4 of §3 hold and every transition entry has a legal movement and
passes the truthiness-guarded state/symbol containment tests
(`transStateLenient`/`transSymbolLenient`), which skip violations by falsy
values; invariant 5 (halt state ∈ states) is not checked at all.  Violating
any *checked* condition fails construction; the halt state and falsy-valued
transition violations are not detected (see the counterexample). -/
theorem claim_C2_validation (states in_alphabet tape_alphabet : List PyVal)
    (tf : List TransEntry) (istate : PyVal) (fstates : List PyVal)
    (hstate blank : PyVal) :
    isOkE (mkMachine states in_alphabet tape_alphabet tf istate fstates
        hstate blank) = true ↔
      ((∀ s ∈ in_alphabet, s ∈ tape_alphabet) ∧ blank ∈ tape_alphabet ∧
       istate ∈ states ∧ (∀ s ∈ fstates, s ∈ states) ∧
       ∀ e ∈ tf, transStateLenient states e.1.1 e.2.1 ∧
         transSymbolLenient tape_alphabet e.1.2 e.2.2.1 ∧
         e.2.2.2 ∈ HEAD_MOVEMENTS) := by
  unfold mkMachine
  dsimp only
  rcases hcd : checkData ⟨states, in_alphabet, tape_alphabet, tf, istate,
      fstates, hstate, blank⟩ with e | u
  · constructor
    · intro habs
      exact absurd habs (by simp [isOkE])
    · intro hr
      have hok := (checkData_ok_iff ⟨states, in_alphabet, tape_alphabet, tf,
        istate, fstates, hstate, blank⟩).mpr hr
      rw [hok] at hcd
      cases hcd
  · cases u
    exact iff_of_true (by simp [isOkE])
      ((checkData_ok_iff ⟨states, in_alphabet, tape_alphabet, tf, istate,
        fstates, hstate, blank⟩).mp hcd)

/-- Witness for the amended claim C2: the incrementer's constructor data
satisfies every checked condition, so construction succeeds. -/
theorem claim_C2_witness :
    isOkE (mkMachine [pI 1, pI 2, pI 3, pS "HALT"] [pI 0, pI 1]
      [pI 0, pI 1, pS "#"] INC.trans_function (pI 1) [pI 2] (pS "HALT")
      (pS "#")) = true :=
  (claim_C2_validation [pI 1, pI 2, pI 3, pS "HALT"] [pI 0, pI 1]
    [pI 0, pI 1, pS "#"] INC.trans_function (pI 1) [pI 2] (pS "HALT")
    (pS "#")).mpr (by decide)

/-- Claim C6 (amended): on a successful `step()`, every attached observer is
notified `onStepStart` first — before the lookup and before any mutation —
with the *pre-lookup* pair (current state, symbol under head), not the
transition's resulting values; after the mutation, each observer in
registration order receives `onStepEnd(newState, writtenSymbol, movement)`
immediately followed, if the head changed, by its `onHeadMoved(new, old)` —
i.e. the end-of-step events are interleaved per observer.  The new current
state is the transition's resulting state. -/
theorem claim_C6_observer_order (tm : TM) (cfg : Config) (t : List PyVal)
    (sym ns nsym : PyVal) (mov : Nat) (c : Config)
    (hh : cfg.state ≠ tm.hstate) (ht : cfg.tape = some t)
    (hs : t[cfg.head]? = some sym)
    (hl : lookupTrans tm.trans_function (cfg.state, sym) = some (ns, nsym, mov))
    (hstep : stepF tm cfg = (c, .ok ())) :
    c.state = ns ∧
    c.events = cfg.events ++ notifyAll cfg.nobs (.stepStart cfg.state sym) ++
      (List.range cfg.nobs).flatMap (fun i =>
        (i, Event.stepEnd ns nsym mov) ::
          (if c.head ≠ cfg.head then [(i, Event.headMoved c.head cfg.head)]
           else [])) := by
  simp only [stepF] at hstep
  rw [if_neg hh, ht] at hstep
  dsimp only at hstep
  rw [List.get?_eq_getElem?] at hstep
  rw [hs] at hstep
  dsimp only at hstep
  rw [hl] at hstep
  dsimp only at hstep
  obtain ⟨hc, -⟩ := Prod.mk.injEq .. ▸ hstep
  subst hc
  exact ⟨rfl, by simp [List.append_assoc]⟩

/-- The configuration after the single observed step of `M6`. -/
def cfgM6' : Config :=
  { tape := some [pS "b", pS "#"], head := 1, state := pI 2, nsteps := 1,
    nobs := 2,
    events := [(0, .stepStart (pI 1) (pS "a")), (1, .stepStart (pI 1) (pS "a")),
      (0, .stepEnd (pI 2) (pS "b") MOVE_RIGHT), (0, .headMoved 1 0),
      (1, .stepEnd (pI 2) (pS "b") MOVE_RIGHT), (1, .headMoved 1 0)] }

/-- Witness for the amended claim C6 at `M6` with two observers. -/
theorem claim_C6_witness :
    cfgM6'.state = pI 2 ∧
    cfgM6'.events = cfgM6.events ++
      notifyAll cfgM6.nobs (.stepStart (pI 1) (pS "a")) ++
      (List.range cfgM6.nobs).flatMap (fun i =>
        (i, Event.stepEnd (pI 2) (pS "b") MOVE_RIGHT) ::
          (if cfgM6'.head ≠ cfgM6.head then
            [(i, Event.headMoved cfgM6'.head cfgM6.head)]
           else [])) :=
  claim_C6_observer_order M6 cfgM6 [pS "a"] (pS "a") (pI 2) (pS "b")
    MOVE_RIGHT cfgM6' (by decide) rfl (by decide) (by decide) (by decide)

end TMSim
